import Mathlib

/-!
Verification of the model-mapping OpenAI-compatible proxy
(`poe_server_模型映射版本.ts`).

The server is shallowly embedded: JSON documents become the inductive
`JsonVal`, the two module-level mapping records become association lists of
strings, the single upstream `fetch` call is abstracted by a `FetchResult`
environment value, and the request handler `handle` becomes a pure function
from the loaded mapping, the incoming request, the fetch environment and the
current clock to an `Outcome` (either a produced HTTP response or an
unhandled exception escaping the handler), together with the request that
was sent upstream, if any.
-/

/-- A JSON value.  Numbers are modelled as exact rationals: the server never
does arithmetic on payload numbers, it only moves them around, and every
numeric literal occurring in the source (1000, 0.7, 1) is exactly
representable. -/
inductive JsonVal where
  | null
  | bool (b : Bool)
  | num (q : Rat)
  | str (s : String)
  | arr (elems : List JsonVal)
  | obj (fields : List (String × JsonVal))

/-- JavaScript truthiness of a JSON value. -/
def jsTruthy : JsonVal → Bool
  | .null => false
  | .bool b => b
  | .num q => if q = 0 then false else true
  | .str s => if s = "" then false else true
  | .arr _ => true
  | .obj _ => true

/-- Property read `v[key]` on a parsed JSON value: `some` is a present
property, `none` is JavaScript `undefined` (also for reads off non-objects,
which yield `undefined` for the property names the server uses). -/
def jget (v : JsonVal) (key : String) : Option JsonVal :=
  match v with
  | .obj fields => (fields.find? (fun kv => kv.1 == key)).map (·.2)
  | _ => none

/-- Array element read `v[i]`; `undefined` off the end or on non-arrays. -/
def jindex (v : JsonVal) (i : Nat) : Option JsonVal :=
  match v with
  | .arr elems => elems.get? i
  | _ => none

/-- Property assignment on an object's field list: an existing key is
updated in place (JavaScript objects keep the original insertion position),
a new key is appended. -/
def jsetFields : List (String × JsonVal) → String → JsonVal → List (String × JsonVal)
  | [], k, v => [(k, v)]
  | (k', v') :: rest, k, v =>
      if k' == k then (k, v) :: rest else (k', v') :: jsetFields rest k v

/-- Property assignment `o[k] = v`.  The server only ever assigns onto a
parsed JSON object; assignment onto a non-object is left as the identity. -/
def jset (o : JsonVal) (k : String) (v : JsonVal) : JsonVal :=
  match o with
  | .obj fields => .obj (jsetFields fields k v)
  | x => x

/-- JavaScript string coercion, used by the template literal in
`convertDallE3Request` and by the mapping lookup.  Exact for strings,
booleans, null and integer numbers, which are the only coercions a
well-typed request exercises; a non-integer rational renders as `num/den`
where JavaScript would render a decimal. -/
def jsToString : JsonVal → String
  | .str s => s
  | .num q => toString q
  | .bool b => if b then "true" else "false"
  | .null => "null"
  | .arr _ => ""
  | .obj _ => "[object Object]"

/-- The forward model mapping `modelMapping`, a JSON-object record from
caller-facing model names to upstream model names, as an association list in
insertion order. -/
abbrev Mapping := List (String × String)

/-- Record lookup `m[k]`: `some` for a present key, `none` for `undefined`. -/
def lookupStr (m : Mapping) (k : String) : Option String :=
  (m.find? (fun kv => kv.1 == k)).map (·.2)

/-- Truthiness of a record lookup result: `undefined` is falsy and so is the
empty string. -/
def jsTruthyStr : Option String → Bool
  | some s => if s = "" then false else true
  | none => false

/-- Record assignment `m[k] = v` (update in place or append), used while
building the reverse mapping. -/
def upsert : Mapping → String → String → Mapping
  | [], k, v => [(k, v)]
  | (k', v') :: rest, k, v =>
      if k' == k then (k, v) :: rest else (k', v') :: upsert rest k v

/-- `loadModelMapping`'s derived reverse mapping: for each forward entry
`(key, value)` in order, set `reverse[value] = key`; on duplicate values the
last write wins. -/
def reverseOf (m : Mapping) : Mapping :=
  m.foldl (fun acc kv => upsert acc kv.2 kv.1) []

/-- The keys of a mapping record, in order (`Object.keys`). -/
def mapKeys (m : Mapping) : List String := m.map (·.1)

/-- `mapModelName`: first the forward mapping is consulted, then the
reverse mapping, then the input is returned unchanged.  Both guards are
JavaScript truthiness tests, so an entry whose value is the empty string
behaves like an absent entry. -/
def mapModelName (mm rm : Mapping) (inputModel : String) : String :=
  if jsTruthyStr (lookupStr mm inputModel) then
    (lookupStr mm inputModel).getD ""
  else if jsTruthyStr (lookupStr rm inputModel) then
    inputModel
  else
    inputModel

/-- The resolver exactly as the specification words it: the mapped value
whenever the name is a key of the forward mapping, otherwise the name
unchanged. -/
def resolveClaimed (mm : Mapping) (m : String) : String :=
  match lookupStr mm m with
  | some v => v
  | none => m

/-- The resolver as amended: the mapped value whenever the name is a key of
the forward mapping with a non-empty value; otherwise (unknown name, name
only present as a value, or a key mapped to the empty string) the name
unchanged. -/
def resolveAmended (mm : Mapping) (m : String) : String :=
  match lookupStr mm m with
  | some v => if v = "" then m else v
  | none => m

/-- C1 counterexample: with the loaded mapping sending "a" to the empty
string, "a" is a key of ModelMapping, yet resolving "a" returns "a"
unchanged instead of the mapped value "", because the forward-mapping guard
is a truthiness test and the empty string is falsy. -/
theorem c1_resolve_counterexample :
    lookupStr [("a", "")] "a" = some "" ∧
    mapModelName [("a", "")] (reverseOf [("a", "")]) "a" = "a" ∧
    resolveClaimed [("a", "")] "a" = "" ∧
    ("a" : String) ≠ "" := by
  refine ⟨rfl, rfl, rfl, by decide⟩

/-- C1 (amended): resolving a name through `mapModelName`, with the reverse
mapping derived from the forward mapping as at load time, returns the
forward-mapped value when the name is a forward key with a non-empty value,
and returns the name unchanged in every other case (in particular for names
occurring only as mapping values, and for unknown names). -/
theorem c1_resolve_amended (mm : Mapping) (m : String) :
    mapModelName mm (reverseOf mm) m = resolveAmended mm m := by
  unfold mapModelName resolveAmended
  cases h : lookupStr mm m with
  | none => simp [jsTruthyStr, h]
  | some v =>
    by_cases hv : v = ""
    · subst hv
      simp [jsTruthyStr, h]
    · simp [jsTruthyStr, h, hv]

/-- The characters of the literal `https://` that both URL patterns require. -/
def httpsChars : List Char := ['h', 't', 't', 'p', 's', ':', '/', '/']

/-- The whitespace class of the regexes and of string trimming. -/
def jsWhitespace (c : Char) : Bool :=
  c = ' ' || c = '\t' || c = '\n' || c = '\r' || c = '\x0b' || c = '\x0c'

/-- A character ending a bare URL match: whitespace or a closing
parenthesis. -/
def urlStop (c : Char) : Bool := jsWhitespace c || c = ')'

/-- Global scan for the bare-URL pattern (the literal `https://` followed by
one or more characters that are neither whitespace nor a closing
parenthesis): at each position try a match; on success continue after the
match, otherwise advance one character.  The fuel argument only bounds the
number of scan steps and starts above the input length, so it never runs
out. -/
def scanUrlsAux : Nat → List Char → List (List Char)
  | 0, _ => []
  | _ + 1, [] => []
  | fuel + 1, c :: cs =>
      if httpsChars.isPrefixOf (c :: cs) then
        let after := (c :: cs).drop 8
        let run := after.takeWhile (fun d => !(urlStop d))
        if run.isEmpty then scanUrlsAux fuel cs
        else (httpsChars ++ run) :: scanUrlsAux fuel (after.drop run.length)
      else scanUrlsAux fuel cs

/-- All bare-URL matches in a content string, in order. -/
def bareUrlMatches (s : String) : List String :=
  (scanUrlsAux (s.data.length + 1) s.data).map String.mk

/-- Inside a Markdown image tag, after the opening parenthesis: the literal
`https://`, then a maximal non-empty run of characters other than a closing
parenthesis, which must be followed by a closing parenthesis.  Returns the
captured URL. -/
def mdUrlPart (cs : List Char) : Option (List Char) :=
  if httpsChars.isPrefixOf cs then
    let after := cs.drop 8
    let run := after.takeWhile (fun d => d ≠ ')')
    if run.isEmpty then none
    else
      match after.drop run.length with
      | ')' :: _ => some (httpsChars ++ run)
      | _ => none
  else none

/-- Try to read the tag's closing `](` at the current position and then the
URL part. -/
def mdTryClose : List Char → Option (List Char)
  | ']' :: '(' :: tail => mdUrlPart tail
  | _ => none

/-- After the opening `![` of a Markdown image tag: the lazily matched alt
text tries the shortest possibility first, one character at a time; a line
terminator cannot be part of the alt text and aborts this start position. -/
def mdAfterBracket : List Char → Option (List Char)
  | [] => none
  | c :: cs =>
      match mdTryClose (c :: cs) with
      | some u => some u
      | none => if c = '\n' ∨ c = '\r' then none else mdAfterBracket cs

/-- Try a Markdown image tag starting exactly at the current position. -/
def mdTryStart : List Char → Option (List Char)
  | '!' :: '[' :: tail => mdAfterBracket tail
  | _ => none

/-- First (leftmost, shortest alt text) Markdown image-tag match in the
content; returns the captured URL. -/
def mdScan : List Char → Option (List Char)
  | [] => none
  | c :: cs =>
      match mdTryStart (c :: cs) with
      | some u => some u
      | none => mdScan cs

/-- Try an alt-text match at the current position: `![`, then a maximal
non-empty run of characters other than a closing bracket, which must be
followed by a closing bracket.  Returns the captured alt text. -/
def altTryStart : List Char → Option (List Char)
  | '!' :: '[' :: tail =>
      let run := tail.takeWhile (fun d => d ≠ ']')
      if run.isEmpty then none
      else
        match tail.drop run.length with
        | ']' :: _ => some run
        | _ => none
  | _ => none

/-- First alt-text match in the content. -/
def altScan : List Char → Option (List Char)
  | [] => none
  | c :: cs =>
      match altTryStart (c :: cs) with
      | some r => some r
      | none => altScan cs

/-- Global replace of the pattern `https://` followed by one or more
non-whitespace characters, with the empty string; non-matching characters
are kept.  As in the scanner, the fuel starts above the input length and
never runs out. -/
def stripUrlsAux : Nat → List Char → List Char
  | 0, l => l
  | _ + 1, [] => []
  | fuel + 1, c :: cs =>
      if httpsChars.isPrefixOf (c :: cs) then
        let after := (c :: cs).drop 8
        let run := after.takeWhile (fun d => !(jsWhitespace d))
        if run.isEmpty then c :: stripUrlsAux fuel cs
        else stripUrlsAux fuel (after.drop run.length)
      else c :: stripUrlsAux fuel cs

/-- All URL occurrences replaced by the empty string. -/
def stripUrls (s : String) : String :=
  String.mk (stripUrlsAux (s.data.length + 1) s.data)

/-- Whitespace removed from both ends. -/
def jsTrim (s : String) : String :=
  String.mk (((s.data.dropWhile jsWhitespace).reverse.dropWhile jsWhitespace).reverse)

/-- The first `n` characters of a string. -/
def jsSubstring (s : String) (n : Nat) : String := String.mk (s.data.take n)

/-- Image-URL extraction from upstream content: first take the last
bare-URL match if there is one; only if that leaves the URL empty, fall
back to the URL captured by a Markdown image tag. -/
def extractImageUrl (content : String) : String :=
  let urlMatches := bareUrlMatches content
  let imageUrl := if urlMatches.length > 0 then urlMatches.getLastD "" else ""
  if imageUrl = "" then
    match mdScan content.data with
    | some u => String.mk u
    | none => imageUrl
  else imageUrl

/-- Caption extraction: the Markdown alt text when present, otherwise the
content with all URLs removed, trimmed and truncated to 100 characters. -/
def revisedPromptOf (content : String) : String :=
  let fromAlt :=
    match altScan content.data with
    | some alt => String.mk alt
    | none => ""
  if fromAlt = "" then jsSubstring (jsTrim (stripUrls content)) 100 else fromAlt

/-- Read `choices[0].message.content` with optional chaining and replace a
falsy result by the empty string.  A truthy non-string content would make
the subsequent regex-method calls throw; that is modelled as `none`. -/
def chatContentOf (chatResponse : JsonVal) : Option String :=
  match (((jget chatResponse "choices").bind (fun v => jindex v 0)).bind
          (fun v => jget v "message")).bind (fun v => jget v "content") with
  | none => some ""
  | some v =>
      if jsTruthy v then
        match v with
        | .str s => some s
        | _ => none
      else some ""

/-- `convertDallE3Response`: wrap the extracted URL and caption in the
OpenAI images response shape; `created` is the current Unix time in
seconds. -/
def convertDallE3Response (chatResponse : JsonVal) (now : Nat) : Option JsonVal :=
  match chatContentOf chatResponse with
  | none => none
  | some content =>
      let imageUrl := extractImageUrl content
      let revisedPrompt := revisedPromptOf content
      some (.obj [("created", .num ((now / 1000 : Nat) : Rat)),
        ("data", .arr [.obj [("url", .str imageUrl),
          ("revised_prompt",
            .str (if revisedPrompt = "" then "Generated image" else revisedPrompt))]])])

theorem ne_nil_of_mem_scanUrlsAux :
    ∀ (fuel : Nat) (l : List Char), ∀ x ∈ scanUrlsAux fuel l, x ≠ []
  | 0, _ => by simp [scanUrlsAux]
  | _ + 1, [] => by simp [scanUrlsAux]
  | fuel + 1, c :: cs => by
      simp only [scanUrlsAux]
      split
      · split
        · exact ne_nil_of_mem_scanUrlsAux fuel cs
        · intro x hx
          rcases List.mem_cons.mp hx with rfl | hx
          · simp [httpsChars]
          · exact ne_nil_of_mem_scanUrlsAux fuel _ x hx
      · exact ne_nil_of_mem_scanUrlsAux fuel cs

theorem ne_empty_of_mem_bareUrlMatches (s : String) :
    ∀ x ∈ bareUrlMatches s, x ≠ "" := by
  intro x hx
  unfold bareUrlMatches at hx
  rcases List.mem_map.mp hx with ⟨cs, hcs, rfl⟩
  have hne := ne_nil_of_mem_scanUrlsAux _ _ cs hcs
  intro hmk
  have hlen := congrArg String.length hmk
  simp only [String.length] at hlen
  exact hne (List.length_eq_zero.mp hlen)

theorem getLastD_ne_empty :
    ∀ (l : List String) (d : String), (∀ x ∈ l, x ≠ "") → d ≠ "" → l.getLastD d ≠ ""
  | [], _, _, hd => by simpa [List.getLastD_nil] using hd
  | a :: t, d, hall, _ => by
      rw [List.getLastD_cons]
      exact getLastD_ne_empty t a (fun x hx => hall x (List.mem_cons_of_mem _ hx))
        (hall a (List.mem_cons_self a t))

/-- The fixed upstream endpoint. -/
def UPSTREAM_API : String := "https://api.poe.com/v1/chat/completions"

/-- An inbound HTTP request: method, path, the value of the authorization
header if present, and the request body, modelled as already-parsed JSON
(every claim under study concerns well-formed bodies). -/
structure Request where
  method : String
  path : String
  authorization : Option String
  body : JsonVal

/-- What the handler sends upstream: the fixed URL, the JSON body it
serializes, and the bearer token it forwards. -/
structure UpstreamRequest where
  url : String
  body : JsonVal
  token : String

/-- The environment's view of the upstream response: the status code, the
body as the sequence of byte chunks the reader yields (the full text is
their concatenation), and the platform JSON parse of that text (`none` when
the text is not valid JSON, in which case `json()` rejects). -/
structure UpstreamResponse where
  status : Nat
  chunks : List String
  json : Option JsonVal

/-- Outcome of the single upstream `fetch` the handler may perform. -/
inductive FetchResult where
  | success (resp : UpstreamResponse)
  | networkError

/-- A response body produced by the handler: a serialized JSON document, a
verbatim text body, or a pass-through byte stream. -/
inductive HBody where
  | jsonOf (v : JsonVal)
  | raw (s : String)
  | streamOf (chunks : List String)

/-- A response produced by the handler. -/
structure HResponse where
  status : Nat
  headers : List (String × String)
  body : HBody

/-- Result of one request: either a response was produced, or an error
escaped the handler unhandled (there is no try/catch in the source).  In
both cases the upstream request that was issued, if any, is recorded. -/
inductive Outcome where
  | ok (resp : HResponse) (sent : Option UpstreamRequest)
  | exn (sent : Option UpstreamRequest)

/-- The upstream request recorded in an outcome; `none` means upstream was
never contacted. -/
def sentRequest : Outcome → Option UpstreamRequest
  | .ok _ sent => sent
  | .exn sent => sent

/-- The test `auth.startsWith("Bearer ")`, on the character sequence. -/
def strStartsWith (s pre : String) : Bool := pre.data.isPrefixOf s.data

/-- The expression `auth.slice(7)`, on the character sequence. -/
def strDrop (s : String) (n : Nat) : String := String.mk (s.data.drop n)

/-- Authorization parsing shared by both POST handlers: the header must be
present and start with `Bearer `; the token is the rest, trimmed. -/
def parseBearer : Option String → Option String
  | some a => if strStartsWith a "Bearer " then some (jsTrim (strDrop a 7)) else none
  | none => none

/-- The chat handler's model rewrite: when the body's `model` field is
truthy, replace it by its mapping through `mapModelName`; otherwise leave
the body alone. -/
def rewriteModel (mm : Mapping) (reqBody : JsonVal) : JsonVal :=
  match jget reqBody "model" with
  | some mv =>
      if jsTruthy mv then
        jset reqBody "model" (.str (mapModelName mm (reverseOf mm) (jsToString mv)))
      else reqBody
  | none => reqBody

/-- The strict test `reqBody.stream === true`. -/
def isStreamTrue (reqBody : JsonVal) : Bool :=
  match jget reqBody "stream" with
  | some (.bool true) => true
  | _ => false

/-- The image handler's model test:
`reqBody.model === "dall-e-3" || mapModelName("dall-e-3") === reqBody.model`. -/
def isDalleModel (mm : Mapping) (reqBody : JsonVal) : Bool :=
  match jget reqBody "model" with
  | some (.str s) => s == "dall-e-3" || mapModelName mm (reverseOf mm) "dall-e-3" == s
  | _ => false

/-- A request field with a default: the caller's value when truthy,
otherwise the default. -/
def jsOrDefault (v : Option JsonVal) (d : JsonVal) : JsonVal :=
  match v with
  | some x => if jsTruthy x then x else d
  | none => d

/-- `convertDallE3Request`: build the chat-completions request whose single
user message embeds prompt, size, quality, style and count, with the mapped
model name, `max_tokens` 1000 and temperature 0.7. -/
def convertDallE3Request (mm : Mapping) (reqBody : JsonVal) : JsonVal :=
  let prompt := jsOrDefault (jget reqBody "prompt") (.str "")
  let size := jsOrDefault (jget reqBody "size") (.str "1024x1024")
  let quality := jsOrDefault (jget reqBody "quality") (.str "standard")
  let style := jsOrDefault (jget reqBody "style") (.str "vivid")
  let n := jsOrDefault (jget reqBody "n") (.num 1)
  .obj [("model", .str (mapModelName mm (reverseOf mm) "dall-e-3")),
    ("messages", .arr [.obj [("role", .str "user"),
      ("content", .str ("Generate an image with the following specifications:\nPrompt: "
        ++ jsToString prompt ++ "\nSize: " ++ jsToString size ++ "\nQuality: "
        ++ jsToString quality ++ "\nStyle: " ++ jsToString style
        ++ "\nNumber of images: " ++ jsToString n))]]),
    ("max_tokens", .num 1000),
    ("temperature", .num (7 / 10))]

/-- First-occurrence deduplication, as iterating a JavaScript `Set`
preserves insertion order; `seen` accumulates the values already kept. -/
def dedupAcc (seen : List String) : List String → List String
  | [] => []
  | x :: xs => if x ∈ seen then dedupAcc seen xs else x :: dedupAcc (x :: seen) xs

/-- The body served by `GET /v1/models`: the deduplicated concatenation of
the forward keys and the reverse keys, each wrapped as a model object with
`created` set to the raw millisecond clock. -/
def modelListJson (mm : Mapping) (now : Nat) : JsonVal :=
  let models := mapKeys mm ++ mapKeys (reverseOf mm)
  let uniqueModels := dedupAcc [] models
  .obj [("object", .str "list"),
    ("data", .arr (uniqueModels.map (fun model =>
      .obj [("id", .str model), ("object", .str "model"),
        ("created", .num (now : Rat)), ("owned_by", .str "proxy")])))]

/-- The ids listed in a models response body. -/
def idsOf (v : JsonVal) : List String :=
  match jget v "data" with
  | some (.arr xs) =>
      xs.filterMap (fun x =>
        match jget x "id" with
        | some (.str s) => some s
        | _ => none)
  | _ => []

/-- The structured 401 body for a missing bearer token. -/
def missingBearerBody : JsonVal :=
  .obj [("error", .obj [("message", .str "Missing Bearer token")])]

/-- The structured 400 body for a non-dall-e-3 image request. -/
def onlyDalleBody : JsonVal :=
  .obj [("error",
    .obj [("message", .str "Only dall-e-3 model is supported for image generation")])]

/-- The informational body served on unmatched routes. -/
def fallbackBody (mm : Mapping) : JsonVal :=
  .obj [("message", .str "OK, POST /v1/chat/completions, POST /v1/images/generations"),
    ("models_loaded", .num ((mapKeys mm).length : Rat))]

/-- The `POST /v1/images/generations` branch: bearer check, dall-e-3 model
test, request conversion, upstream call, then either a verbatim error
pass-through with the upstream status, or the converted image response with
status 200.  A network error or a JSON failure on the upstream body is an
unhandled rejection. -/
def imagesHandler (mm : Mapping) (req : Request) (fr : FetchResult) (now : Nat) : Outcome :=
  match parseBearer req.authorization with
  | none => .ok ⟨401, [("content-type", "application/json")], .jsonOf missingBearerBody⟩ none
  | some token =>
      if isDalleModel mm req.body then
        let chatRequest := convertDallE3Request mm req.body
        let sent : UpstreamRequest := ⟨UPSTREAM_API, chatRequest, token⟩
        match fr with
        | .networkError => .exn (some sent)
        | .success up =>
            if 200 ≤ up.status ∧ up.status ≤ 299 then
              match up.json with
              | none => .exn (some sent)
              | some chatResponse =>
                  match convertDallE3Response chatResponse now with
                  | none => .exn (some sent)
                  | some imageResponse =>
                      .ok ⟨200, [("content-type", "application/json"),
                        ("access-control-allow-origin", "*")], .jsonOf imageResponse⟩
                        (some sent)
            else
              .ok ⟨up.status, [("content-type", "application/json")],
                .raw (String.join up.chunks)⟩ (some sent)
      else
        .ok ⟨400, [("content-type", "application/json")], .jsonOf onlyDalleBody⟩ none

/-- The `POST /v1/chat/completions` branch: bearer check, model rewrite,
upstream call, then either the fixed-status SSE pass-through or the
buffered verbatim pass-through with the upstream status.  A network error
is an unhandled rejection. -/
def chatHandler (mm : Mapping) (req : Request) (fr : FetchResult) : Outcome :=
  match parseBearer req.authorization with
  | none => .ok ⟨401, [("content-type", "application/json")], .jsonOf missingBearerBody⟩ none
  | some token =>
      let reqBody := rewriteModel mm req.body
      let stream := isStreamTrue reqBody
      let sent : UpstreamRequest := ⟨UPSTREAM_API, reqBody, token⟩
      match fr with
      | .networkError => .exn (some sent)
      | .success up =>
          if stream then
            .ok ⟨200, [("content-type", "text/event-stream; charset=utf-8"),
              ("cache-control", "no-cache"), ("connection", "keep-alive"),
              ("access-control-allow-origin", "*")], .streamOf up.chunks⟩ (some sent)
          else
            .ok ⟨up.status, [("content-type", "application/json"),
              ("access-control-allow-origin", "*")], .raw (String.join up.chunks)⟩
              (some sent)

/-- The router: image generations, chat completions, model list, then the
informational fallback, in source order. -/
def handle (mm : Mapping) (req : Request) (fr : FetchResult) (now : Nat) : Outcome :=
  if req.method = "POST" ∧ req.path = "/v1/images/generations" then
    imagesHandler mm req fr now
  else if req.method = "POST" ∧ req.path = "/v1/chat/completions" then
    chatHandler mm req fr
  else if req.method = "GET" ∧ req.path = "/v1/models" then
    .ok ⟨200, [("content-type", "application/json"),
      ("access-control-allow-origin", "*")], .jsonOf (modelListJson mm now)⟩ none
  else
    .ok ⟨200, [("content-type", "application/json")], .jsonOf (fallbackBody mm)⟩ none

/-- Whether an outcome produced an HTTP response at all. -/
def responded : Outcome → Bool
  | .ok _ _ => true
  | .exn _ => false

theorem some_str_ne {s t : String} (h : s ≠ t) :
    (some (JsonVal.str s) : Option JsonVal) ≠ some (JsonVal.str t) := by
  intro he
  injection he with h1
  injection h1 with h2
  exact h h2

theorem find?_jsetFields_ne (fields : List (String × JsonVal)) (k k' : String) (v : JsonVal)
    (h : k' ≠ k) :
    (jsetFields fields k v).find? (fun kv => kv.1 == k') =
      fields.find? (fun kv => kv.1 == k') := by
  induction fields with
  | nil =>
    have hf : (k == k') = false := beq_eq_false_iff_ne.mpr (Ne.symm h)
    simp [jsetFields, List.find?, hf]
  | cons hd t ih =>
    simp only [jsetFields]
    by_cases hk : (hd.1 == k) = true
    · rw [if_pos hk]
      have hkeq : hd.1 = k := by simpa using hk
      have hf : (k == k') = false := beq_eq_false_iff_ne.mpr (Ne.symm h)
      simp only [List.find?, hf, hkeq]
    · rw [if_neg hk]
      simp only [List.find?]
      cases hh : (hd.1 == k') with
      | true => rfl
      | false => simpa using ih

theorem jget_jset_ne (o : JsonVal) (k k' : String) (v : JsonVal) (h : k' ≠ k) :
    jget (jset o k v) k' = jget o k' := by
  cases o with
  | obj fields => simp only [jset, jget, find?_jsetFields_ne fields k k' v h]
  | null => rfl
  | bool b => rfl
  | num q => rfl
  | str s => rfl
  | arr xs => rfl

theorem isStreamTrue_rewriteModel (mm : Mapping) (b : JsonVal) :
    isStreamTrue (rewriteModel mm b) = isStreamTrue b := by
  unfold rewriteModel
  cases hj : jget b "model" with
  | none => rfl
  | some mv =>
    show isStreamTrue (if jsTruthy mv then jset b "model"
        (.str (mapModelName mm (reverseOf mm) (jsToString mv))) else b) = isStreamTrue b
    by_cases ht : jsTruthy mv = true
    · rw [if_pos ht]
      unfold isStreamTrue
      rw [jget_jset_ne b "model" "stream" _ (by decide)]
    · rw [if_neg ht]

/-- C4: a chat-completions POST whose authorization header is missing or
does not start with `Bearer ` is answered 401 with the missing-bearer error
body, and upstream is never contacted. -/
theorem c4_chat_missing_bearer (mm : Mapping) (req : Request) (fr : FetchResult) (now : Nat)
    (hm : req.method = "POST") (hp : req.path = "/v1/chat/completions")
    (ha : ∀ a, req.authorization = some a → strStartsWith a "Bearer " = false) :
    handle mm req fr now =
      .ok ⟨401, [("content-type", "application/json")], .jsonOf missingBearerBody⟩ none := by
  unfold handle
  rw [hm, hp, if_neg (by decide), if_pos ⟨rfl, rfl⟩]
  unfold chatHandler
  have hb : parseBearer req.authorization = none := by
    cases hau : req.authorization with
    | none => rfl
    | some a => simp [parseBearer, ha a hau]
  rw [hb]

theorem c4_chat_missing_bearer_witness :
    handle [] ⟨"POST", "/v1/chat/completions", none, .obj []⟩ .networkError 0 =
      .ok ⟨401, [("content-type", "application/json")], .jsonOf missingBearerBody⟩ none :=
  c4_chat_missing_bearer [] _ .networkError 0 rfl rfl (fun a ha => by cases ha)

/-- C7 counterexample: on a network failure of the upstream fetch, the chat
handler produces no response at all; the rejection escapes the handler
unhandled (there is no try/catch in the source), so no 408 timeout envelope
is ever sent. -/
theorem c7_network_error_counterexample :
    handle [] ⟨"POST", "/v1/chat/completions", some "Bearer t", .obj [("model", .str "m")]⟩
        .networkError 0 =
      .exn (some ⟨UPSTREAM_API, .obj [("model", .str "m")], "t"⟩) ∧
    responded (handle []
      ⟨"POST", "/v1/chat/completions", some "Bearer t", .obj [("model", .str "m")]⟩
      .networkError 0) = false :=
  ⟨rfl, rfl⟩

/-- C7 (amended): when contacting the upstream fails, the error propagates
out of the handler as an unhandled rejection after the upstream request was
issued; the handler does not respond, with 408 or anything else.  This holds
on the chat path and on the image path for a dall-e-3 request. -/
theorem c7_network_error_unhandled (mm : Mapping) (req : Request) (tok : String) (now : Nat)
    (hm : req.method = "POST") (ha : parseBearer req.authorization = some tok) :
    (req.path = "/v1/chat/completions" →
      handle mm req .networkError now =
        .exn (some ⟨UPSTREAM_API, rewriteModel mm req.body, tok⟩)) ∧
    (req.path = "/v1/images/generations" → isDalleModel mm req.body = true →
      handle mm req .networkError now =
        .exn (some ⟨UPSTREAM_API, convertDallE3Request mm req.body, tok⟩)) := by
  constructor
  · intro hp
    unfold handle
    rw [hm, hp, if_neg (by decide), if_pos ⟨rfl, rfl⟩]
    unfold chatHandler
    rw [ha]
  · intro hp hd
    unfold handle
    rw [hm, hp, if_pos ⟨rfl, rfl⟩]
    unfold imagesHandler
    rw [ha]
    simp only [hd, if_true]

theorem c7_network_error_unhandled_witness :
    handle [] ⟨"POST", "/v1/chat/completions", some "Bearer u", .obj []⟩ .networkError 3 =
      .exn (some ⟨UPSTREAM_API, rewriteModel [] (.obj []), "u"⟩) :=
  (c7_network_error_unhandled []
    ⟨"POST", "/v1/chat/completions", some "Bearer u", .obj []⟩ "u" 3 rfl rfl).1 rfl

/-- C9 counterexample: a chat request with temperature 5 and an unrecognized
field `foo` is forwarded with temperature 5 at top level (no clamping into
the 0..2 range) and with `foo` still at top level; no `extra_body` object is
created. -/
theorem c9_no_filtering_counterexample :
    sentRequest (handle [] ⟨"POST", "/v1/chat/completions", some "Bearer t",
        .obj [("model", .str "m"), ("temperature", .num 5), ("foo", .num 1)]⟩
        (.success ⟨200, ["x"], none⟩) 0) =
      some ⟨UPSTREAM_API,
        .obj [("model", .str "m"), ("temperature", .num 5), ("foo", .num 1)], "t"⟩ ∧
    jget (.obj [("model", .str "m"), ("temperature", .num 5), ("foo", .num 1)]) "temperature"
      = some (.num 5) ∧
    ¬ (5 : Rat) ≤ 2 ∧
    jget (.obj [("model", .str "m"), ("temperature", .num 5), ("foo", .num 1)]) "extra_body"
      = none ∧
    jget (.obj [("model", .str "m"), ("temperature", .num 5), ("foo", .num 1)]) "foo"
      = some (.num 1) :=
  ⟨rfl, rfl, by norm_num, rfl, rfl⟩

/-- C9 (amended): the outbound upstream body of a chat request is the
inbound body unchanged except for the model-field rewrite; no parameter
allowlist, temperature clamping or `extra_body` collection takes place. -/
theorem c9_outbound_body_is_rewritten_input (mm : Mapping) (req : Request) (tok : String)
    (fr : FetchResult) (now : Nat)
    (hm : req.method = "POST") (hp : req.path = "/v1/chat/completions")
    (ha : parseBearer req.authorization = some tok) :
    sentRequest (handle mm req fr now) =
      some ⟨UPSTREAM_API, rewriteModel mm req.body, tok⟩ := by
  unfold handle
  rw [hm, hp, if_neg (by decide), if_pos ⟨rfl, rfl⟩]
  unfold chatHandler
  rw [ha]
  cases fr with
  | networkError => rfl
  | success up =>
    by_cases hst : isStreamTrue (rewriteModel mm req.body) = true
    · simp only [hst, if_true]
      rfl
    · rw [Bool.not_eq_true] at hst
      simp only [hst, if_false]
      rfl

theorem c9_outbound_body_witness :
    sentRequest (handle [("a", "b")] ⟨"POST", "/v1/chat/completions", some "Bearer t2",
        .obj [("model", .str "a")]⟩ (.success ⟨200, [], none⟩) 0) =
      some ⟨UPSTREAM_API, rewriteModel [("a", "b")] (.obj [("model", .str "a")]), "t2"⟩ :=
  c9_outbound_body_is_rewritten_input [("a", "b")] _ "t2" _ 0 rfl rfl rfl

/-- C10: an authorized image-generation POST whose model field is neither
the literal dall-e-3 nor the name dall-e-3 maps to is answered 400 with the
only-dall-e-3 error body, and upstream is never contacted. -/
theorem c10_images_non_dalle_rejected (mm : Mapping) (req : Request) (fr : FetchResult)
    (now : Nat) (tok : String)
    (hm : req.method = "POST") (hp : req.path = "/v1/images/generations")
    (ha : parseBearer req.authorization = some tok)
    (h1 : jget req.body "model" ≠ some (.str "dall-e-3"))
    (h2 : jget req.body "model" ≠ some (.str (mapModelName mm (reverseOf mm) "dall-e-3"))) :
    handle mm req fr now =
      .ok ⟨400, [("content-type", "application/json")], .jsonOf onlyDalleBody⟩ none := by
  have hd : isDalleModel mm req.body = false := by
    unfold isDalleModel
    cases hj : jget req.body "model" with
    | none => rfl
    | some v =>
      cases v with
      | str s =>
        have e1 : (s == "dall-e-3") = false :=
          beq_eq_false_iff_ne.mpr (fun hs => h1 (by rw [hj, hs]))
        have e2 : (mapModelName mm (reverseOf mm) "dall-e-3" == s) = false :=
          beq_eq_false_iff_ne.mpr (fun hs => h2 (by rw [hj, hs]))
        show (s == "dall-e-3" || mapModelName mm (reverseOf mm) "dall-e-3" == s) = false
        rw [e1, e2]
        rfl
      | null => rfl
      | bool b => rfl
      | num q => rfl
      | arr xs => rfl
      | obj fs => rfl
  unfold handle
  rw [hm, hp, if_pos ⟨rfl, rfl⟩]
  unfold imagesHandler
  rw [ha]
  simp only [hd, Bool.false_eq_true, if_false]

theorem c10_images_non_dalle_rejected_witness :
    handle [("dall-e-3", "gpt-image")] ⟨"POST", "/v1/images/generations", some "Bearer t",
        .obj [("model", .str "gpt-4")]⟩ .networkError 0 =
      .ok ⟨400, [("content-type", "application/json")], .jsonOf onlyDalleBody⟩ none :=
  c10_images_non_dalle_rejected [("dall-e-3", "gpt-image")]
    ⟨"POST", "/v1/images/generations", some "Bearer t", .obj [("model", .str "gpt-4")]⟩
    .networkError 0 "t" rfl rfl rfl (some_str_ne (by decide)) (some_str_ne (by decide))

/-- C3 counterexample: an authorized dall-e-3 image request with size
512x512 is not rejected: the converted request is sent upstream (so
upstream is contacted) and the upstream error text is passed through
verbatim; no invalid-size error body is ever produced. -/
theorem c3_size_not_validated_counterexample :
    handle [] ⟨"POST", "/v1/images/generations", some "Bearer t",
        .obj [("model", .str "dall-e-3"), ("prompt", .str "p"), ("size", .str "512x512")]⟩
        (.success ⟨400, ["upstream error"], none⟩) 0 =
      .ok ⟨400, [("content-type", "application/json")], .raw (String.join ["upstream error"])⟩
        (some ⟨UPSTREAM_API,
          convertDallE3Request []
            (.obj [("model", .str "dall-e-3"), ("prompt", .str "p"),
              ("size", .str "512x512")]), "t"⟩) ∧
    sentRequest (handle [] ⟨"POST", "/v1/images/generations", some "Bearer t",
        .obj [("model", .str "dall-e-3"), ("prompt", .str "p"), ("size", .str "512x512")]⟩
        (.success ⟨400, ["upstream error"], none⟩) 0) ≠ none :=
  ⟨rfl, fun h => Option.noConfusion h⟩

/-- C3 (amended): the image handler performs no size validation: an
authorized dall-e-3 request whose size is not 1024x1024 still has its
converted chat request (with the size embedded in the prompt text) sent
upstream, whatever the fetch outcome; no invalid-size rejection exists. -/
theorem c3_size_forwarded (mm : Mapping) (req : Request) (fr : FetchResult) (now : Nat)
    (tok : String)
    (hm : req.method = "POST") (hp : req.path = "/v1/images/generations")
    (ha : parseBearer req.authorization = some tok)
    (hd : isDalleModel mm req.body = true)
    (hsz : jget req.body "size" ≠ some (.str "1024x1024")) :
    sentRequest (handle mm req fr now) =
      some ⟨UPSTREAM_API, convertDallE3Request mm req.body, tok⟩ := by
  unfold handle
  rw [hm, hp, if_pos ⟨rfl, rfl⟩]
  unfold imagesHandler
  rw [ha]
  simp only [hd, eq_self_iff_true, if_true]
  cases fr with
  | networkError => rfl
  | success up =>
    dsimp only
    by_cases hok : 200 ≤ up.status ∧ up.status ≤ 299
    · rw [if_pos hok]
      cases hj : up.json with
      | none => rfl
      | some j =>
        dsimp only
        cases hc : convertDallE3Response j now with
        | none => rfl
        | some imageResponse => rfl
    · rw [if_neg hok]
      rfl

theorem c3_size_forwarded_witness :
    sentRequest (handle [] ⟨"POST", "/v1/images/generations", some "Bearer t3",
        .obj [("model", .str "dall-e-3"), ("size", .str "256x256")]⟩ .networkError 0) =
      some ⟨UPSTREAM_API, convertDallE3Request []
        (.obj [("model", .str "dall-e-3"), ("size", .str "256x256")]), "t3"⟩ :=
  c3_size_forwarded [] ⟨"POST", "/v1/images/generations", some "Bearer t3",
      .obj [("model", .str "dall-e-3"), ("size", .str "256x256")]⟩ .networkError 0 "t3"
    rfl rfl rfl rfl (some_str_ne (by decide))

/-- C5: an authorized chat POST whose stream field is false or absent is
answered with the upstream status and the upstream body text verbatim. -/
theorem c5_chat_nonstream_passthrough (mm : Mapping) (req : Request) (tok : String)
    (up : UpstreamResponse) (now : Nat)
    (hm : req.method = "POST") (hp : req.path = "/v1/chat/completions")
    (ha : parseBearer req.authorization = some tok)
    (hs : jget req.body "stream" = some (.bool false) ∨ jget req.body "stream" = none) :
    handle mm req (.success up) now =
      .ok ⟨up.status, [("content-type", "application/json"),
        ("access-control-allow-origin", "*")], .raw (String.join up.chunks)⟩
        (some ⟨UPSTREAM_API, rewriteModel mm req.body, tok⟩) := by
  unfold handle
  rw [hm, hp, if_neg (by decide), if_pos ⟨rfl, rfl⟩]
  unfold chatHandler
  rw [ha]
  have hst : isStreamTrue (rewriteModel mm req.body) = false := by
    rw [isStreamTrue_rewriteModel]
    unfold isStreamTrue
    rcases hs with hs | hs <;> rw [hs]
  dsimp only
  rw [hst]
  rfl

theorem c5_chat_nonstream_passthrough_witness :
    handle [] ⟨"POST", "/v1/chat/completions", some "Bearer t",
        .obj [("model", .str "m"), ("stream", .bool false)]⟩
        (.success ⟨418, ["ab", "c"], none⟩) 0 =
      .ok ⟨418, [("content-type", "application/json"), ("access-control-allow-origin", "*")],
        .raw (String.join ["ab", "c"])⟩
        (some ⟨UPSTREAM_API,
          rewriteModel [] (.obj [("model", .str "m"), ("stream", .bool false)]), "t"⟩) :=
  c5_chat_nonstream_passthrough [] ⟨"POST", "/v1/chat/completions", some "Bearer t",
      .obj [("model", .str "m"), ("stream", .bool false)]⟩ "t" ⟨418, ["ab", "c"], none⟩ 0
    rfl rfl rfl (Or.inl rfl)

/-- C6 counterexample: a streaming chat request whose upstream answers with
status 500 is still answered with status 200: the stream branch hard-codes
the status instead of preserving the upstream one. -/
theorem c6_stream_status_counterexample :
    handle [] ⟨"POST", "/v1/chat/completions", some "Bearer t",
        .obj [("model", .str "m"), ("stream", .bool true)]⟩
        (.success ⟨500, ["d1", "d2"], none⟩) 0 =
      .ok ⟨200, [("content-type", "text/event-stream; charset=utf-8"),
        ("cache-control", "no-cache"), ("connection", "keep-alive"),
        ("access-control-allow-origin", "*")], .streamOf ["d1", "d2"]⟩
        (some ⟨UPSTREAM_API, .obj [("model", .str "m"), ("stream", .bool true)], "t"⟩) ∧
    (200 : Nat) ≠ 500 :=
  ⟨rfl, by decide⟩

/-- C6 (amended): an authorized chat POST with stream true is answered with
the upstream chunk sequence passed through unchanged under the SSE and CORS
headers, but with status always 200, regardless of the upstream status. -/
theorem c6_stream_passthrough (mm : Mapping) (req : Request) (tok : String)
    (up : UpstreamResponse) (now : Nat)
    (hm : req.method = "POST") (hp : req.path = "/v1/chat/completions")
    (ha : parseBearer req.authorization = some tok)
    (hs : jget req.body "stream" = some (.bool true)) :
    handle mm req (.success up) now =
      .ok ⟨200, [("content-type", "text/event-stream; charset=utf-8"),
        ("cache-control", "no-cache"), ("connection", "keep-alive"),
        ("access-control-allow-origin", "*")], .streamOf up.chunks⟩
        (some ⟨UPSTREAM_API, rewriteModel mm req.body, tok⟩) := by
  unfold handle
  rw [hm, hp, if_neg (by decide), if_pos ⟨rfl, rfl⟩]
  unfold chatHandler
  rw [ha]
  have hst : isStreamTrue (rewriteModel mm req.body) = true := by
    rw [isStreamTrue_rewriteModel]
    unfold isStreamTrue
    rw [hs]
  dsimp only
  rw [hst]
  rfl

theorem c6_stream_passthrough_witness :
    handle [] ⟨"POST", "/v1/chat/completions", some "Bearer t6",
        .obj [("model", .str "m"), ("stream", .bool true)]⟩
        (.success ⟨200, ["x", "y"], none⟩) 0 =
      .ok ⟨200, [("content-type", "text/event-stream; charset=utf-8"),
        ("cache-control", "no-cache"), ("connection", "keep-alive"),
        ("access-control-allow-origin", "*")], .streamOf ["x", "y"]⟩
        (some ⟨UPSTREAM_API,
          rewriteModel [] (.obj [("model", .str "m"), ("stream", .bool true)]), "t6"⟩) :=
  c6_stream_passthrough [] ⟨"POST", "/v1/chat/completions", some "Bearer t6",
      .obj [("model", .str "m"), ("stream", .bool true)]⟩ "t6" ⟨200, ["x", "y"], none⟩ 0
    rfl rfl rfl rfl

theorem mem_dedupAcc (x : String) :
    ∀ (l seen : List String), x ∈ dedupAcc seen l ↔ x ∈ l ∧ x ∉ seen := by
  intro l
  induction l with
  | nil => intro seen; simp [dedupAcc]
  | cons a t ih =>
    intro seen
    unfold dedupAcc
    by_cases h : a ∈ seen
    · rw [if_pos h, ih]
      constructor
      · rintro ⟨hx, hns⟩
        exact ⟨List.mem_cons_of_mem _ hx, hns⟩
      · rintro ⟨hx, hns⟩
        rcases List.mem_cons.mp hx with rfl | hx
        · exact absurd h hns
        · exact ⟨hx, hns⟩
    · rw [if_neg h]
      constructor
      · intro hx
        rcases List.mem_cons.mp hx with rfl | hx
        · exact ⟨List.mem_cons_self _ _, h⟩
        · rcases (ih _).mp hx with ⟨h1, h2⟩
          exact ⟨List.mem_cons_of_mem _ h1, fun hs => h2 (List.mem_cons_of_mem _ hs)⟩
      · rintro ⟨hx, hns⟩
        rcases List.mem_cons.mp hx with rfl | hx
        · exact List.mem_cons_self _ _
        · by_cases hxa : x = a
          · subst hxa
            exact List.mem_cons_self _ _
          · refine List.mem_cons_of_mem _ ((ih _).mpr ⟨hx, ?_⟩)
            intro hs
            rcases List.mem_cons.mp hs with h' | h'
            · exact hxa h'
            · exact hns h'

theorem filterMap_id_of_wrapped (now : Nat) (l : List String) :
    (l.map (fun model => JsonVal.obj [("id", .str model), ("object", .str "model"),
        ("created", .num (now : Rat)), ("owned_by", .str "proxy")])).filterMap
      (fun x =>
        match jget x "id" with
        | some (.str s) => some s
        | _ => none) = l := by
  induction l with
  | nil => rfl
  | cons a t ih =>
    exact congrArg (List.cons a) ih

theorem idsOf_modelListJson (mm : Mapping) (now : Nat) :
    idsOf (modelListJson mm now) = dedupAcc [] (mapKeys mm ++ mapKeys (reverseOf mm)) := by
  unfold idsOf modelListJson
  exact filterMap_id_of_wrapped now _

/-- C8 counterexample: with the empty loaded mapping, the models endpoint
serves an empty data array; in particular the literal dall-e-3 is not among
the listed ids, although the image endpoint only serves that model. -/
theorem c8_dalle_missing_counterexample :
    handle [] ⟨"GET", "/v1/models", none, .null⟩ .networkError 0 =
      .ok ⟨200, [("content-type", "application/json"),
        ("access-control-allow-origin", "*")],
        .jsonOf (.obj [("object", .str "list"), ("data", .arr [])])⟩ none ∧
    idsOf (modelListJson [] 0) = [] ∧
    ¬ "dall-e-3" ∈ idsOf (modelListJson [] 0) :=
  ⟨rfl, rfl, by decide⟩

/-- C8 (amended): the models endpoint answers 200 with the model list built
from the mapping alone: an id is listed exactly when it is a key of the
forward mapping or of the derived reverse mapping (each listed id wrapped
with object model, the millisecond clock and owner proxy); the literal
dall-e-3 is not added. -/
theorem c8_models_list (mm : Mapping) (au : Option String) (bd : JsonVal) (now : Nat)
    (fr : FetchResult) (m : String) :
    handle mm ⟨"GET", "/v1/models", au, bd⟩ fr now =
      .ok ⟨200, [("content-type", "application/json"),
        ("access-control-allow-origin", "*")], .jsonOf (modelListJson mm now)⟩ none ∧
    (m ∈ idsOf (modelListJson mm now) ↔ m ∈ mapKeys mm ∨ m ∈ mapKeys (reverseOf mm)) := by
  constructor
  · rfl
  · rw [idsOf_modelListJson, mem_dedupAcc]
    simp [List.mem_append]

/-- C2 counterexample: in a content string that contains a Markdown image
tag followed by a later bare URL, the Markdown tag is present and captures
its own URL, yet the extraction returns the last bare URL match, not the
Markdown capture: the bare-URL scan runs first and the Markdown capture is
only a fallback for when no bare URL matched at all. -/
theorem c2_markdown_priority_counterexample :
    mdScan "![a](https://a/x) https://b/y".data = some "https://a/x".data ∧
    bareUrlMatches "![a](https://a/x) https://b/y" = ["https://a/x", "https://b/y"] ∧
    extractImageUrl "![a](https://a/x) https://b/y" = "https://b/y" ∧
    ("https://b/y" : String) ≠ "https://a/x" :=
  ⟨rfl, rfl, rfl, by decide⟩

/-- C2 (amended): whenever the content has at least one bare URL match the
extraction returns the last such match, even when a Markdown image tag is
present; only when there is no bare URL match at all does it fall back to
the URL captured by a Markdown image tag, and to the empty string when that
also fails. -/
theorem c2_extract_amended (content : String) :
    (bareUrlMatches content ≠ [] →
      extractImageUrl content = (bareUrlMatches content).getLastD "") ∧
    (bareUrlMatches content = [] →
      extractImageUrl content = ((mdScan content.data).map String.mk).getD "") := by
  constructor
  · intro h
    have hne : (bareUrlMatches content).getLastD "" ≠ "" := by
      cases hl : bareUrlMatches content with
      | nil => exact absurd hl h
      | cons a t =>
        rw [List.getLastD_cons]
        refine getLastD_ne_empty t a ?_ ?_
        · intro x hx
          exact ne_empty_of_mem_bareUrlMatches content x
            (by rw [hl]; exact List.mem_cons_of_mem _ hx)
        · exact ne_empty_of_mem_bareUrlMatches content a
            (by rw [hl]; exact List.mem_cons_self _ _)
    unfold extractImageUrl
    dsimp only
    rw [if_pos (List.length_pos.mpr h), if_neg hne]
  · intro h
    unfold extractImageUrl
    rw [h]
    cases hmd : mdScan content.data <;> simp [hmd, List.getLastD]

theorem c2_extract_amended_witness :
    bareUrlMatches "see https://u/1 and https://u/2" ≠ [] ∧
    extractImageUrl "see https://u/1 and https://u/2" =
      (bareUrlMatches "see https://u/1 and https://u/2").getLastD "" :=
  ⟨by decide, (c2_extract_amended "see https://u/1 and https://u/2").1 (by decide)⟩
